import Mathlib

/-!
Verification of the Potala ticket monitor (ticket.py).

The development shallowly embeds the decision core of the program:
the availability classifier (fetch_slots), the slot summarizer
(format_available_lines / join_lines), the open-window scheduler
(compute_open_date and the sleep computation), the Server酱 notify
wrapper (notify_serverchan), and the change-gated per-key state
machine of the main loop.  External effects (HTTP transport, push
delivery, randomness) enter as explicit oracle inputs; dates are
embedded as proleptic-Gregorian day ordinals, which is how Python
date objects behave under timedelta arithmetic and comparison.
-/

namespace Potala

/-! ## Small Python-semantics helpers (char-level, kernel-friendly) -/

/-- Characters removed by the str.strip() call on the quantity field. -/
def isPySpace (c : Char) : Bool :=
  c = ' ' || c = '\t' || c = '\n' || c = '\r' || c = Char.ofNat 11 || c = Char.ofNat 12

/-- Python str.strip(): drop leading and trailing whitespace. -/
def pyStrip (s : String) : String :=
  String.mk (((s.toList.dropWhile isPySpace).reverse.dropWhile isPySpace).reverse)

/-- Value of a nonempty decimal digit string. -/
def digitsVal (cs : List Char) : Nat :=
  cs.foldl (fun a c => a * 10 + (c.toNat - 48)) 0

/-- Parse of a decimal digit run as int() sees it after stripping:
an optional sign followed by at least one ASCII digit. -/
def pyIntOfString (s : String) : Option Int :=
  match s.toList with
  | [] => none
  | '-' :: rest =>
      if rest ≠ [] ∧ rest.all Char.isDigit then some (-(digitsVal rest : Int)) else none
  | '+' :: rest =>
      if rest ≠ [] ∧ rest.all Char.isDigit then some ((digitsVal rest : Int)) else none
  | cs =>
      if cs.all Char.isDigit then some ((digitsVal cs : Int)) else none

/-- Whether the list n occurs at the head of the list h. -/
def startsList (n h : List Char) : Bool :=
  match n, h with
  | [], _ => true
  | _ :: _, [] => false
  | a :: as, b :: bs => a = b && startsList as bs

/-- Whether the list n occurs contiguously anywhere in the list h. -/
def containsList (n : List Char) : List Char → Bool
  | [] => n.isEmpty
  | b :: bs => startsList n (b :: bs) || containsList n bs

/-- Python substring test: needle in haystack. -/
def strContains (haystack needle : String) : Bool :=
  containsList needle.toList haystack.toList

/-- Python s[:k] slicing on a string. -/
def strTake (s : String) (k : Nat) : String :=
  String.mk (s.toList.take k)

/-- Python truthiness-based or on two optional strings:
a or b, where None and the empty string are falsy. -/
def pyOrStr (a b : Option String) : Option String :=
  match a with
  | some s => if s = "" then b else some s
  | none => b

/-- Rendering of an optional string inside an f-string (None prints as None). -/
def pyShowOpt (a : Option String) : String :=
  match a with
  | some s => s
  | none => "None"

/-- Rendering of the optional numeric code field inside an f-string. -/
def pyShowCode (a : Option Int) : String :=
  match a with
  | some n => toString n
  | none => "None"

/-! ## Configuration constants (module-level constants of ticket.py) -/

def CHECK_INTERVAL_SEC : Nat := 60
def JITTER_SEC : Nat := 10
def EARLY_CHECK_INTERVAL_SEC : Nat := 43200
def LEAD_DAYS : Nat := 15

/-! ## Data model -/

/-- One slot dict from the data list of the API response.  Only the keys
the program reads are modelled; each value is kept as the string the
program would see after its str() conversion, none meaning the key is
absent from the dict. -/
structure Slot where
  nums : Option String
  time_interval_str : Option String
  time_interval : Option String
deriving DecidableEq, Repr

/-- Shape of the data field of a JSON-object response body. -/
inductive DataField where
  | absent
  | nonList
  | list (slots : List Slot)
deriving DecidableEq, Repr

def DataField.isList : DataField → Bool
  | .list _ => true
  | _ => false

def DataField.getList : DataField → List Slot
  | .list l => l
  | _ => []

/-- Outcome of the HTTP POST plus body parsing, as fetch_slots observes it:
the post call raised; the body was not JSON and raise_for_status raised;
the body was not JSON with an OK status; or a JSON object with optional
numeric code, msg string (after str()), and data field. -/
inductive RawResponse where
  | transportError (e : String)
  | httpError (e : String)
  | jsonError (e : String) (text : String)
  | ok (code : Option Int) (msg : String) (data_ : DataField)
deriving DecidableEq, Repr

/-- The three status tags of class FetchStatus. -/
inductive FetchStatus where
  | OK
  | NOT_OPEN
  | ERROR
deriving DecidableEq, Repr

/-! ## Availability classifier: fetch_slots -/

/-- Classification performed by fetch_slots on the observed raw response:
returns (status, slots, msg) exactly as the Python function does. -/
def fetch_slots (r : RawResponse) : FetchStatus × Option (List Slot) × String :=
  match r with
  | .transportError e => (FetchStatus.ERROR, none, "网络异常: " ++ e)
  | .httpError e2 => (FetchStatus.ERROR, none, "HTTP异常: " ++ e2)
  | .jsonError e text =>
      (FetchStatus.ERROR, none, "JSON解析异常: " ++ e ++ " | 响应内容: " ++ strTake text 200)
  | .ok code msg df =>
      if code = some 1 ∧ df.isList then
        (FetchStatus.OK, some df.getList, msg)
      else if code = some 0 ∧ strContains msg "暂无数据" then
        (FetchStatus.NOT_OPEN, none, msg)
      else if strContains msg "登录" ∨ strContains msg "请先登录" ∨ code = some 0 then
        (FetchStatus.ERROR, none, "接口异常或token无效: " ++ msg)
      else
        (FetchStatus.ERROR, none, "未知返回: code=" ++ pyShowCode code ++ ", msg=" ++ msg)

/-- Modelled from the spec (section 4.1 decision rule), for the refinement
claim about the classifier: code 1 with a present list data field yields
Open with the parsed list; otherwise code 0 with the no-data marker yields
NotYetOpen; every other response yields Error. -/
def classify_spec (r : RawResponse) : FetchStatus × Option (List Slot) :=
  match r with
  | .ok code msg df =>
      if code = some 1 ∧ df.isList then
        (FetchStatus.OK, some df.getList)
      else if code = some 0 ∧ strContains msg "暂无数据" then
        (FetchStatus.NOT_OPEN, none)
      else
        (FetchStatus.ERROR, none)
  | _ => (FetchStatus.ERROR, none)

/-! ## Slot summarizer: format_available_lines / join_lines -/

/-- Quantity of a slot as the program computes it:
int(str(s.get(nums-key, zero)).strip() or 0), with any parse failure
caught and treated as zero. -/
def slotNums (s : Slot) : Int :=
  let raw := pyStrip (s.nums.getD "0")
  if raw = "" then 0
  else (pyIntOfString raw).getD 0

/-- Label of a slot: time_interval_str falling back to time_interval
under Python truthiness, rendered in the f-string. -/
def slotLabel (s : Slot) : String :=
  pyShowOpt (pyOrStr s.time_interval_str s.time_interval)

/-- The line pushed for one available slot. -/
def renderSlot (s : Slot) : String :=
  slotLabel s ++ "：" ++ toString (slotNums s) ++ " 张"

/-- Contribution of one slot to the loop body of format_available_lines. -/
def slotLine (s : Slot) : Option String :=
  if 0 < slotNums s then some (renderSlot s) else none

/-- format_available_lines: keep only slots with positive quantity,
in input order, each rendered as label：qty 张. -/
def format_available_lines (slots : List Slot) : List String :=
  slots.filterMap slotLine

/-- Python sep.join semantics. -/
def pyJoin (sep : String) : List String → String
  | [] => ""
  | l :: ls => ls.foldl (fun acc x => acc ++ sep ++ x) l

/-- join_lines: the comparable fingerprint string, empty for no lines. -/
def join_lines (lines : List String) : String :=
  if lines = [] then "" else pyJoin " | " lines

/-! ## Open-window scheduler: dates as day ordinals -/

/-- Leap year rule of the proleptic Gregorian calendar. -/
def isLeapYear (y : Nat) : Bool :=
  (y % 4 = 0 && y % 100 ≠ 0) || y % 400 = 0

/-- Number of days in a month. -/
def daysInMonth (y m : Nat) : Nat :=
  if m = 2 then (if isLeapYear y then 29 else 28)
  else if m = 4 ∨ m = 6 ∨ m = 9 ∨ m = 11 then 30
  else 31

/-- Day ordinal of a Gregorian date (days since 0000-03-01), the
standard era-based civil-to-days computation; Python date objects
compare and subtract exactly as these ordinals do. -/
def toOrdinal (y m d : Nat) : Nat :=
  let ys := if m ≤ 2 then y - 1 else y
  let era := ys / 400
  let yoe := ys % 400
  let mp := if 2 < m then m - 3 else m + 9
  let doy := (153 * mp + 2) / 5 + (d - 1)
  let doe := yoe * 365 + yoe / 4 - yoe / 100 + doy
  era * 146097 + doe

/-- Split a character list at a separator character. -/
def splitOnChar (c : Char) : List Char → List (List Char)
  | [] => [[]]
  | a :: as =>
      let r := splitOnChar c as
      if a = c then [] :: r
      else
        match r with
        | [] => [[a]]
        | g :: gs => (a :: g) :: gs

/-- Parse of the digits of one date component. -/
def natOfDigits (cs : List Char) : Option Nat :=
  if cs ≠ [] ∧ cs.all Char.isDigit then some (digitsVal cs) else none

/-- strptime with format Y-m-d followed by .date(): three dash-separated
digit groups forming a valid calendar date. -/
def parse_date (s : String) : Option (Nat × Nat × Nat) :=
  match splitOnChar '-' s.toList with
  | [ys, ms, ds] =>
      match natOfDigits ys, natOfDigits ms, natOfDigits ds with
      | some y, some m, some d =>
          if 1 ≤ y ∧ 1 ≤ m ∧ m ≤ 12 ∧ 1 ≤ d ∧ d ≤ daysInMonth y m then some (y, m, d)
          else none
      | _, _, _ => none
  | _ => none

/-- compute_open_date: the parsed target date minus 15 calendar days,
as a day ordinal (none when strptime would raise). -/
def compute_open_date (dateStr : String) : Option Nat :=
  (parse_date dateStr).map (fun t => toOrdinal t.1 t.2.1 t.2.2 - LEAD_DAYS)

/-- The open-window test the loop performs: today >= open date. -/
def is_in_open_window (today : Nat) (dateStr : String) : Bool :=
  match compute_open_date dateStr with
  | some od => od ≤ today
  | none => false

/-- End-of-cycle sleep: short base once any target date has reached its
open date, long base otherwise, plus the randint jitter draw. -/
def cycle_sleep (today : Nat) (openDates : List Nat) (jitter : Nat) : Nat :=
  (if openDates.any (fun od => od ≤ today) then CHECK_INTERVAL_SEC
   else EARLY_CHECK_INTERVAL_SEC) + jitter

/-! ## Notify collaborator: notify_serverchan -/

/-- Result of a Python call: it either returned (carrying the warnings it
logged) or raised an exception. -/
inductive NotifyOutcome where
  | returned (warnings : List String)
  | raised (e : String)
deriving DecidableEq, Repr

/-- The body of the try block in notify_serverchan: the POST to the push
service followed by raise_for_status.  The delivery oracle says whether
that pair of calls raises, and with what message. -/
def serverchan_post (delivery : Option String) : NotifyOutcome :=
  match delivery with
  | none => NotifyOutcome.returned []
  | some e => NotifyOutcome.raised e

/-- notify_serverchan: returns immediately when the send key is unset,
otherwise runs the push attempt under a catch-all handler that converts
any exception into a logged warning. -/
def notify_serverchan (sendkey : String) (delivery : Option String) : NotifyOutcome :=
  if sendkey = "" then NotifyOutcome.returned []
  else
    match serverchan_post delivery with
    | NotifyOutcome.returned w => NotifyOutcome.returned w
    | NotifyOutcome.raised e => NotifyOutcome.returned ["Server酱推送失败: " ++ e]

/-! ## Change-gated state machine: one key of the main loop body -/

/-- One entry of the last_pushed dict. -/
structure Entry where
  status : String
  payload : String
deriving DecidableEq, Repr

/-- last_pushed.get(key, empty).get(status-key): none when the key has
never been stored. -/
def getStatus (st : Option Entry) : Option String :=
  st.map Entry.status

/-- last_pushed.get(key, empty).get(payload-key, empty string). -/
def getPayload (st : Option Entry) : String :=
  match st with
  | some e => e.payload
  | none => ""

/-- Title of the push sent on a stock update. -/
def push_title (dateStr : String) (cid : Int) : String :=
  "布达拉宫 " ++ dateStr ++ " 有票更新（路线" ++ toString cid ++ "）"

/-- Body of the push: the available lines as a markdown bullet list. -/
def push_body (lines : List String) : String :=
  pyJoin "\n" (lines.map (fun ln => "- " ++ ln))

/-- An invocation of the notify collaborator: the available-slot lines it
was asked to deliver, with the rendered title and body. -/
structure NotifyCall where
  lines : List String
  title : String
  body : String
deriving DecidableEq, Repr

/-- Observable outcome of the loop body for one key: whether fetch_slots
was invoked, the notify calls issued (at most one), an exception escaping
the body (never happens, proved below), and the last_pushed entry for the
key afterwards. -/
structure StepResult where
  fetchCalled : Bool
  notifications : List NotifyCall
  raised : Option String
  newEntry : Option Entry
deriving DecidableEq, Repr

/-- The main-loop body for one (cid, date) key, as a function of the
oracle inputs: current day ordinal, the computed open-date ordinal, the
raw network response that a fetch would observe, the push configuration
and delivery outcome, and the remembered entry.  Mirrors ticket.py main
lines 203-277. -/
def process_key (today openDate : Nat) (cid : Int) (dateStr : String)
    (sendkey : String) (delivery : Option String)
    (raw : RawResponse) (prior : Option Entry) : StepResult :=
  if today < openDate then
    { fetchCalled := false
      notifications := []
      raised := none
      newEntry := if getStatus prior ≠ some "NOT_OPEN" then some ⟨"NOT_OPEN", ""⟩ else prior }
  else
    let fr := fetch_slots raw
    match fr.1, fr.2.1 with
    | FetchStatus.NOT_OPEN, _ =>
        { fetchCalled := true
          notifications := []
          raised := none
          newEntry := if getStatus prior ≠ some "NOT_OPEN" then some ⟨"NOT_OPEN", ""⟩ else prior }
    | FetchStatus.ERROR, _ =>
        { fetchCalled := true, notifications := [], raised := none, newEntry := prior }
    | FetchStatus.OK, slotsOpt =>
        -- fetch_slots always pairs OK with a present list (fetch_slots_ok_slots),
        -- which is what the assert in main relies on
        let slots := slotsOpt.getD []
        let lines := format_available_lines slots
        let merged := join_lines lines
        let new_status := if merged ≠ "" then "HAS_STOCK" else "NO_STOCK"
        if (some new_status ≠ getStatus prior) ∨
            (new_status = "HAS_STOCK" ∧ merged ≠ getPayload prior) then
          if new_status = "HAS_STOCK" then
            let call : NotifyCall := ⟨lines, push_title dateStr cid, push_body lines⟩
            match notify_serverchan sendkey delivery with
            | NotifyOutcome.raised e =>
                { fetchCalled := true, notifications := [call], raised := some e,
                  newEntry := prior }
            | NotifyOutcome.returned _w =>
                { fetchCalled := true, notifications := [call], raised := none,
                  newEntry := some ⟨"HAS_STOCK", merged⟩ }
          else
            { fetchCalled := true, notifications := [], raised := none,
              newEntry := some ⟨"NO_STOCK", ""⟩ }
        else
          { fetchCalled := true, notifications := [], raised := none, newEntry := prior }

/-! ## Whole-loop model: cycles over all monitored keys -/

/-- Oracle inputs for one key in one cycle. -/
structure KeyInput where
  cid : Int
  dateStr : String
  openDate : Nat
  raw : RawResponse
  delivery : Option String

/-- Oracle inputs for one cycle: the day at cycle start and the inputs of
each monitored key, in iteration order. -/
structure CycleInput where
  today : Nat
  keys : List KeyInput

/-- A monitored key of last_pushed: (commodity id, date string). -/
abbrev MKey := Int × String

/-- Process-memory state of the loop: the last_pushed table, plus the
history observation of the lines passed to the latest notify call per
key (for stating the payload invariant). -/
structure LoopState where
  table : MKey → Option Entry
  lastNotify : MKey → Option (List String)

/-- State at process start: the empty dict, no notify yet. -/
def initState : LoopState :=
  ⟨fun _ => none, fun _ => none⟩

/-- Effect of one key iteration on the loop state, with the notify calls
it issued. -/
def run_key (sendkey : String) (today : Nat) (ki : KeyInput) (s : LoopState) :
    LoopState × List NotifyCall :=
  let k : MKey := (ki.cid, ki.dateStr)
  let r := process_key today ki.openDate ki.cid ki.dateStr sendkey ki.delivery ki.raw (s.table k)
  (⟨fun k2 => if k2 = k then r.newEntry else s.table k2,
    fun k2 =>
      if k2 = k then
        match r.notifications with
        | [] => s.lastNotify k2
        | n :: _ => some n.lines
      else s.lastNotify k2⟩,
   r.notifications)

/-- Accumulating step of a cycle fold. -/
def cycle_step (sendkey : String) (today : Nat)
    (acc : LoopState × List NotifyCall) (ki : KeyInput) : LoopState × List NotifyCall :=
  let step := run_key sendkey today ki acc.1
  (step.1, acc.2 ++ step.2)

/-- One full cycle over all keys, accumulating notify calls. -/
def run_cycle (sendkey : String) (c : CycleInput) (s : LoopState) :
    LoopState × List NotifyCall :=
  c.keys.foldl (cycle_step sendkey c.today) (s, [])

/-- A run of the monitor from process start over a list of cycles. -/
def run (sendkey : String) (cs : List CycleInput) : LoopState :=
  cs.foldl (fun s c => (run_cycle sendkey c s).1) initState

/-- The random draws consumed by one cycle: the inter-key pause values
and the end-of-cycle jitter. -/
structure RandTape where
  pauses : List Nat
  jitter : Nat

/-- One cycle together with its timing outputs: final state, notify
calls, the inter-key pauses slept, and the end-of-cycle sleep. -/
def run_cycle_rand (sendkey : String) (c : CycleInput) (rt : RandTape) (s : LoopState) :
    LoopState × List NotifyCall × List Nat × Nat :=
  let sn := run_cycle sendkey c s
  (sn.1, sn.2, rt.pauses.take c.keys.length,
   cycle_sleep c.today (c.keys.map KeyInput.openDate) rt.jitter)

/-! ## Derived predicates used in statements -/

/-- A slot passes the summarizer filter exactly when its quantity string,
stripped, parses to a positive integer. -/
def keepSlot (s : Slot) : Bool :=
  match pyIntOfString (pyStrip (s.nums.getD "0")) with
  | some n => decide (0 < n)
  | none => false

/-- The section 8 example input of the spec. -/
def exampleSlots : List Slot :=
  [⟨some "0", some "09:00-10:00", none⟩, ⟨some "5", some "10:00-11:00", none⟩]

/-- A concrete slot with stock, used to instantiate theorems. -/
def witSlot : Slot := ⟨some "5", some "10:00-11:00", none⟩

/-- A concrete one-key cycle before the open date, used to instantiate
theorems. -/
def witCycle : CycleInput :=
  ⟨0, [⟨1, "2025-10-01", 5, RawResponse.transportError "x", none⟩]⟩

/-- Invariant of one stored entry, relative to the lines of the latest
notify call for its key: status is one of the three tags, payload is
empty except for HAS_STOCK, and a HAS_STOCK payload is the fingerprint
of the lines most recently passed to notify. -/
def EntryInv (e : Entry) (log : Option (List String)) : Prop :=
  (e.status = "NOT_OPEN" ∨ e.status = "NO_STOCK" ∨ e.status = "HAS_STOCK") ∧
  ((e.status = "NOT_OPEN" ∨ e.status = "NO_STOCK") → e.payload = "") ∧
  (e.status = "HAS_STOCK" → ∃ lines, log = some lines ∧ e.payload = join_lines lines)

/-- Invariant of the whole per-key state table. -/
def StateInv (s : LoopState) : Prop :=
  ∀ k e, s.table k = some e → EntryInv e (s.lastNotify k)

/-! ## Lemmas on the summarizer -/

theorem slotNums_eq (s : Slot) :
    slotNums s = (pyIntOfString (pyStrip (s.nums.getD "0"))).getD 0 := by
  unfold slotNums
  by_cases h : pyStrip (s.nums.getD "0") = ""
  · rw [h]; simp; rfl
  · simp [h]

theorem slotLine_eq (s : Slot) :
    slotLine s = if keepSlot s then some (renderSlot s) else none := by
  unfold slotLine keepSlot
  rcases h : pyIntOfString (pyStrip (s.nums.getD "0")) with _ | n
  · simp [slotNums_eq s, h]
  · by_cases hn : 0 < n <;> simp [slotNums_eq s, h, hn]

theorem format_available_lines_eq (slots : List Slot) :
    format_available_lines slots = (slots.filter keepSlot).map renderSlot := by
  induction slots with
  | nil => rfl
  | cons s ss ih =>
      unfold format_available_lines at ih ⊢
      rw [List.filterMap_cons, slotLine_eq s, List.filter_cons]
      by_cases h : keepSlot s <;> simp [h, ih]

theorem string_pos_of_ne (s : String) (h : s ≠ "") : 0 < s.length := by
  rcases s with ⟨data⟩
  cases data with
  | nil => exact absurd rfl h
  | cons c cs => simp [String.length]

theorem renderSlot_ne (s : Slot) : renderSlot s ≠ "" := by
  intro h
  have hlen := congrArg String.length h
  simp [renderSlot, String.length_append] at hlen
  exact absurd hlen.1.1.2 (by decide)

theorem format_lines_ne (slots : List Slot) :
    ∀ l ∈ format_available_lines slots, l ≠ "" := by
  intro l hl
  rw [format_available_lines_eq] at hl
  obtain ⟨s, _, rfl⟩ := List.mem_map.mp hl
  exact renderSlot_ne s

theorem pyJoin_foldl_length (sep : String) (ls : List String) (acc : String) :
    acc.length ≤ (ls.foldl (fun a x => a ++ sep ++ x) acc).length := by
  induction ls generalizing acc with
  | nil => simp
  | cons x xs ih =>
      calc acc.length ≤ (acc ++ sep ++ x).length := by
            rw [String.length_append, String.length_append]; omega
        _ ≤ _ := ih (acc ++ sep ++ x)

theorem join_lines_ne (lines : List String) (h0 : ∀ l ∈ lines, l ≠ "")
    (h1 : lines ≠ []) : join_lines lines ≠ "" := by
  match lines with
  | [] => exact absurd rfl h1
  | l :: ls =>
      intro hc
      have hl : l ≠ "" := h0 l (by simp)
      have hpos : 0 < l.length := string_pos_of_ne l hl
      have hle : l.length ≤ (join_lines (l :: ls)).length := by
        unfold join_lines pyJoin
        simpa using pyJoin_foldl_length " | " ls l
      rw [hc] at hle
      have hz : ("" : String).length = 0 := rfl
      omega

theorem merged_ne_of_lines_ne (slots : List Slot)
    (h : format_available_lines slots ≠ []) :
    join_lines (format_available_lines slots) ≠ "" :=
  join_lines_ne _ (format_lines_ne slots) h

/-! ## Lemmas on the classifier and the notify wrapper -/

theorem fetch_slots_ok_slots (r : RawResponse) (h : (fetch_slots r).1 = FetchStatus.OK) :
    ∃ l, (fetch_slots r).2.1 = some l := by
  cases r with
  | transportError e => simp [fetch_slots] at h
  | httpError e => simp [fetch_slots] at h
  | jsonError e t => simp [fetch_slots] at h
  | ok code msg df =>
      simp only [fetch_slots] at h ⊢
      split_ifs at h ⊢
      simp_all

theorem notify_serverchan_returned (k : String) (d : Option String) :
    ∃ w, notify_serverchan k d = NotifyOutcome.returned w := by
  unfold notify_serverchan serverchan_post
  by_cases h : k = "" <;> cases d <;> simp [h]

/-! ## Branch equations of the per-key loop body -/

theorem process_key_closed (today openDate : Nat) (cid : Int) (dateStr sendkey : String)
    (delivery : Option String) (raw : RawResponse) (prior : Option Entry)
    (h : today < openDate) :
    process_key today openDate cid dateStr sendkey delivery raw prior =
      ⟨false, [], none,
        if getStatus prior ≠ some "NOT_OPEN" then some ⟨"NOT_OPEN", ""⟩ else prior⟩ := by
  unfold process_key
  rw [if_pos h]

theorem process_key_not_open (today openDate : Nat) (cid : Int) (dateStr sendkey : String)
    (delivery : Option String) (raw : RawResponse) (prior : Option Entry)
    (h : ¬ today < openDate) (so : Option (List Slot)) (m : String)
    (hf : fetch_slots raw = (FetchStatus.NOT_OPEN, so, m)) :
    process_key today openDate cid dateStr sendkey delivery raw prior =
      ⟨true, [], none,
        if getStatus prior ≠ some "NOT_OPEN" then some ⟨"NOT_OPEN", ""⟩ else prior⟩ := by
  unfold process_key
  rw [if_neg h, hf]

theorem process_key_error (today openDate : Nat) (cid : Int) (dateStr sendkey : String)
    (delivery : Option String) (raw : RawResponse) (prior : Option Entry)
    (h : ¬ today < openDate) (so : Option (List Slot)) (m : String)
    (hf : fetch_slots raw = (FetchStatus.ERROR, so, m)) :
    process_key today openDate cid dateStr sendkey delivery raw prior =
      ⟨true, [], none, prior⟩ := by
  unfold process_key
  rw [if_neg h, hf]

theorem process_key_has_stock (today openDate : Nat) (cid : Int) (dateStr sendkey : String)
    (delivery : Option String) (raw : RawResponse) (prior : Option Entry)
    (h : ¬ today < openDate) (slots : List Slot) (m : String)
    (hf : fetch_slots raw = (FetchStatus.OK, some slots, m))
    (hne : format_available_lines slots ≠ [])
    (hch : getStatus prior ≠ some "HAS_STOCK" ∨
      join_lines (format_available_lines slots) ≠ getPayload prior) :
    process_key today openDate cid dateStr sendkey delivery raw prior =
      ⟨true,
        [⟨format_available_lines slots, push_title dateStr cid,
          push_body (format_available_lines slots)⟩],
        none,
        some ⟨"HAS_STOCK", join_lines (format_available_lines slots)⟩⟩ := by
  unfold process_key
  rw [if_neg h, hf]
  have hm : join_lines (format_available_lines slots) ≠ "" := merged_ne_of_lines_ne slots hne
  simp only [Option.getD_some]
  rw [if_pos hm]
  have hcond : (some "HAS_STOCK" ≠ getStatus prior) ∨
      ("HAS_STOCK" = "HAS_STOCK" ∧
        join_lines (format_available_lines slots) ≠ getPayload prior) := by
    rcases hch with h1 | h2
    · exact Or.inl (Ne.symm h1)
    · exact Or.inr ⟨rfl, h2⟩
  rw [if_pos hcond, if_pos rfl]
  obtain ⟨w, hw⟩ := notify_serverchan_returned sendkey delivery
  rw [hw]

theorem process_key_stock_unchanged (today openDate : Nat) (cid : Int)
    (dateStr sendkey : String)
    (delivery : Option String) (raw : RawResponse) (prior : Option Entry)
    (h : ¬ today < openDate) (slots : List Slot) (m : String)
    (hf : fetch_slots raw = (FetchStatus.OK, some slots, m))
    (hne : format_available_lines slots ≠ [])
    (hst : getStatus prior = some "HAS_STOCK")
    (hpl : getPayload prior = join_lines (format_available_lines slots)) :
    process_key today openDate cid dateStr sendkey delivery raw prior =
      ⟨true, [], none, prior⟩ := by
  unfold process_key
  rw [if_neg h, hf]
  have hm : join_lines (format_available_lines slots) ≠ "" := merged_ne_of_lines_ne slots hne
  simp only [Option.getD_some]
  rw [if_pos hm]
  have hcond : ¬ ((some "HAS_STOCK" ≠ getStatus prior) ∨
      ("HAS_STOCK" = "HAS_STOCK" ∧
        join_lines (format_available_lines slots) ≠ getPayload prior)) := by
    push_neg
    exact ⟨hst.symm, fun _ => hpl.symm⟩
  rw [if_neg hcond]

theorem process_key_no_stock_changed (today openDate : Nat) (cid : Int)
    (dateStr sendkey : String)
    (delivery : Option String) (raw : RawResponse) (prior : Option Entry)
    (h : ¬ today < openDate) (slots : List Slot) (m : String)
    (hf : fetch_slots raw = (FetchStatus.OK, some slots, m))
    (hempty : format_available_lines slots = [])
    (hc : getStatus prior ≠ some "NO_STOCK") :
    process_key today openDate cid dateStr sendkey delivery raw prior =
      ⟨true, [], none, some ⟨"NO_STOCK", ""⟩⟩ := by
  unfold process_key
  rw [if_neg h, hf]
  simp only [Option.getD_some]
  have hm0 : join_lines (format_available_lines slots) = "" := by rw [hempty]; rfl
  rw [if_neg (show ¬ (join_lines (format_available_lines slots) ≠ "") from
    fun hh => hh hm0)]
  rw [if_pos (Or.inl (Ne.symm hc))]
  rw [if_neg (by decide : ¬ ("NO_STOCK" = "HAS_STOCK"))]

theorem process_key_no_stock_unchanged (today openDate : Nat) (cid : Int)
    (dateStr sendkey : String)
    (delivery : Option String) (raw : RawResponse) (prior : Option Entry)
    (h : ¬ today < openDate) (slots : List Slot) (m : String)
    (hf : fetch_slots raw = (FetchStatus.OK, some slots, m))
    (hempty : format_available_lines slots = [])
    (hc : getStatus prior = some "NO_STOCK") :
    process_key today openDate cid dateStr sendkey delivery raw prior =
      ⟨true, [], none, prior⟩ := by
  unfold process_key
  rw [if_neg h, hf]
  simp only [Option.getD_some]
  have hm0 : join_lines (format_available_lines slots) = "" := by rw [hempty]; rfl
  rw [if_neg (show ¬ (join_lines (format_available_lines slots) ≠ "") from
    fun hh => hh hm0)]
  have hcond : ¬ ((some "NO_STOCK" ≠ getStatus prior) ∨
      ("NO_STOCK" = "HAS_STOCK" ∧
        join_lines (format_available_lines slots) ≠ getPayload prior)) := by
    push_neg
    exact ⟨hc.symm, fun hns => absurd hns (by decide)⟩
  rw [if_neg hcond]

/-! ## Preservation of the table invariant -/

theorem entryInv_not_open (log : Option (List String)) :
    EntryInv ⟨"NOT_OPEN", ""⟩ log :=
  ⟨Or.inl rfl, fun _ => rfl, fun hcontra => absurd hcontra (by decide)⟩

theorem entryInv_no_stock (log : Option (List String)) :
    EntryInv ⟨"NO_STOCK", ""⟩ log :=
  ⟨Or.inr (Or.inl rfl), fun _ => rfl, fun hcontra => absurd hcontra (by decide)⟩

theorem process_key_preserves (today openDate : Nat) (cid : Int) (dateStr sendkey : String)
    (delivery : Option String) (raw : RawResponse) (prior : Option Entry)
    (log : Option (List String))
    (hp : ∀ e, prior = some e → EntryInv e log) :
    ∀ e, (process_key today openDate cid dateStr sendkey delivery raw prior).newEntry = some e →
      EntryInv e
        (match (process_key today openDate cid dateStr sendkey delivery raw
            prior).notifications with
         | [] => log
         | n :: _ => some n.lines) := by
  intro e he
  by_cases hw : today < openDate
  · rw [process_key_closed today openDate cid dateStr sendkey delivery raw prior hw] at he ⊢
    by_cases hst : getStatus prior ≠ some "NOT_OPEN"
    · rw [if_pos hst] at he
      obtain rfl : (⟨"NOT_OPEN", ""⟩ : Entry) = e := Option.some.inj he
      exact entryInv_not_open log
    · rw [if_neg hst] at he
      exact hp e he
  · rcases hfr : fetch_slots raw with ⟨st, so, m⟩
    cases st with
    | NOT_OPEN =>
        rw [process_key_not_open today openDate cid dateStr sendkey delivery raw prior
          hw so m hfr] at he ⊢
        by_cases hst : getStatus prior ≠ some "NOT_OPEN"
        · rw [if_pos hst] at he
          obtain rfl : (⟨"NOT_OPEN", ""⟩ : Entry) = e := Option.some.inj he
          exact entryInv_not_open log
        · rw [if_neg hst] at he
          exact hp e he
    | ERROR =>
        rw [process_key_error today openDate cid dateStr sendkey delivery raw prior
          hw so m hfr] at he ⊢
        exact hp e he
    | OK =>
        obtain ⟨slots, hso⟩ := fetch_slots_ok_slots raw (by rw [hfr])
        rw [hfr] at hso
        obtain rfl : so = some slots := hso
        by_cases hle : format_available_lines slots = []
        · by_cases hc : getStatus prior = some "NO_STOCK"
          · rw [process_key_no_stock_unchanged today openDate cid dateStr sendkey delivery
              raw prior hw slots m hfr hle hc] at he ⊢
            exact hp e he
          · rw [process_key_no_stock_changed today openDate cid dateStr sendkey delivery
              raw prior hw slots m hfr hle hc] at he ⊢
            obtain rfl : (⟨"NO_STOCK", ""⟩ : Entry) = e := Option.some.inj he
            exact entryInv_no_stock log
        · by_cases hch : getStatus prior = some "HAS_STOCK" ∧
              getPayload prior = join_lines (format_available_lines slots)
          · rw [process_key_stock_unchanged today openDate cid dateStr sendkey delivery
              raw prior hw slots m hfr hle hch.1 hch.2] at he ⊢
            exact hp e he
          · have hch2 : getStatus prior ≠ some "HAS_STOCK" ∨
                join_lines (format_available_lines slots) ≠ getPayload prior := by
              by_cases h1 : getStatus prior = some "HAS_STOCK"
              · exact Or.inr (fun hsh => hch ⟨h1, hsh.symm⟩)
              · exact Or.inl h1
            rw [process_key_has_stock today openDate cid dateStr sendkey delivery
              raw prior hw slots m hfr hle hch2] at he ⊢
            obtain rfl :
                (⟨"HAS_STOCK", join_lines (format_available_lines slots)⟩ : Entry) = e :=
              Option.some.inj he
            refine ⟨Or.inr (Or.inr rfl), ?_, ?_⟩
            · intro hcontra
              rcases hcontra with h1 | h1
              · exact absurd h1 (show ("HAS_STOCK" : String) ≠ "NOT_OPEN" by decide)
              · exact absurd h1 (show ("HAS_STOCK" : String) ≠ "NO_STOCK" by decide)
            · intro _
              exact ⟨format_available_lines slots, rfl, rfl⟩

theorem run_key_preserves (sendkey : String) (today : Nat) (ki : KeyInput) (s : LoopState)
    (hs : StateInv s) : StateInv (run_key sendkey today ki s).1 := by
  intro k e he
  have ht : (run_key sendkey today ki s).1.table k =
      if k = (ki.cid, ki.dateStr) then
        (process_key today ki.openDate ki.cid ki.dateStr sendkey ki.delivery ki.raw
          (s.table (ki.cid, ki.dateStr))).newEntry
      else s.table k := rfl
  have hl : (run_key sendkey today ki s).1.lastNotify k =
      if k = (ki.cid, ki.dateStr) then
        (match (process_key today ki.openDate ki.cid ki.dateStr sendkey ki.delivery ki.raw
            (s.table (ki.cid, ki.dateStr))).notifications with
         | [] => s.lastNotify k
         | n :: _ => some n.lines)
      else s.lastNotify k := rfl
  rw [ht] at he
  rw [hl]
  by_cases hk : k = (ki.cid, ki.dateStr)
  · subst hk
    rw [if_pos rfl] at he ⊢
    exact process_key_preserves today ki.openDate ki.cid ki.dateStr sendkey ki.delivery
      ki.raw (s.table (ki.cid, ki.dateStr)) (s.lastNotify (ki.cid, ki.dateStr))
      (fun e2 he2 => hs (ki.cid, ki.dateStr) e2 he2) e he
  · rw [if_neg hk] at he ⊢
    exact hs k e he

theorem cycle_fold_preserves (sendkey : String) (today : Nat) (kis : List KeyInput) :
    ∀ p : LoopState × List NotifyCall, StateInv p.1 →
      StateInv (kis.foldl (cycle_step sendkey today) p).1 := by
  induction kis with
  | nil => exact fun p hp => hp
  | cons ki kis ih =>
      intro p hp
      rw [List.foldl_cons]
      refine ih _ ?_
      have hstep : (cycle_step sendkey today p ki).1 = (run_key sendkey today ki p.1).1 := rfl
      rw [hstep]
      exact run_key_preserves sendkey today ki p.1 hp

theorem initState_inv : StateInv initState := by
  intro k e he
  simp [initState] at he

theorem run_preserves (sendkey : String) (cs : List CycleInput) :
    StateInv (run sendkey cs) := by
  unfold run
  have hgen : ∀ s, StateInv s →
      StateInv (cs.foldl (fun s2 c => (run_cycle sendkey c s2).1) s) := by
    induction cs with
    | nil => exact fun s hs => hs
    | cons c cs ih =>
        intro s hs
        rw [List.foldl_cons]
        refine ih _ ?_
        unfold run_cycle
        exact cycle_fold_preserves sendkey c.today c.keys (s, []) hs
  exact hgen initState initState_inv

/-! ## Shape lemmas of the loop body -/

theorem process_key_shape (today openDate : Nat) (cid : Int) (dateStr sendkey : String)
    (delivery : Option String) (raw : RawResponse) (prior : Option Entry) :
    (process_key today openDate cid dateStr sendkey delivery raw prior).raised = none ∧
    ((process_key today openDate cid dateStr sendkey delivery raw prior).fetchCalled = true ↔
      openDate ≤ today) := by
  by_cases hw : today < openDate
  · rw [process_key_closed today openDate cid dateStr sendkey delivery raw prior hw]
    refine ⟨rfl, ?_, fun hge => absurd hw (not_lt.mpr hge)⟩
    intro hft
    exact absurd hft (show (false : Bool) ≠ true by decide)
  · have h1 : openDate ≤ today := not_lt.mp hw
    rcases hfr : fetch_slots raw with ⟨st, so, m⟩
    cases st with
    | NOT_OPEN =>
        rw [process_key_not_open today openDate cid dateStr sendkey delivery raw prior
          hw so m hfr]
        exact ⟨rfl, fun _ => h1, fun _ => rfl⟩
    | ERROR =>
        rw [process_key_error today openDate cid dateStr sendkey delivery raw prior
          hw so m hfr]
        exact ⟨rfl, fun _ => h1, fun _ => rfl⟩
    | OK =>
        obtain ⟨slots, hso⟩ := fetch_slots_ok_slots raw (by rw [hfr])
        rw [hfr] at hso
        obtain rfl : so = some slots := hso
        by_cases hle : format_available_lines slots = []
        · by_cases hc : getStatus prior = some "NO_STOCK"
          · rw [process_key_no_stock_unchanged today openDate cid dateStr sendkey delivery
              raw prior hw slots m hfr hle hc]
            exact ⟨rfl, fun _ => h1, fun _ => rfl⟩
          · rw [process_key_no_stock_changed today openDate cid dateStr sendkey delivery
              raw prior hw slots m hfr hle hc]
            exact ⟨rfl, fun _ => h1, fun _ => rfl⟩
        · by_cases hch : getStatus prior = some "HAS_STOCK" ∧
              getPayload prior = join_lines (format_available_lines slots)
          · rw [process_key_stock_unchanged today openDate cid dateStr sendkey delivery
              raw prior hw slots m hfr hle hch.1 hch.2]
            exact ⟨rfl, fun _ => h1, fun _ => rfl⟩
          · have hch2 : getStatus prior ≠ some "HAS_STOCK" ∨
                join_lines (format_available_lines slots) ≠ getPayload prior := by
              by_cases h2 : getStatus prior = some "HAS_STOCK"
              · exact Or.inr (fun hsh => hch ⟨h2, hsh.symm⟩)
              · exact Or.inl h2
            rw [process_key_has_stock today openDate cid dateStr sendkey delivery
              raw prior hw slots m hfr hle hch2]
            exact ⟨rfl, fun _ => h1, fun _ => rfl⟩

theorem process_key_notify_commits (today openDate : Nat) (cid : Int)
    (dateStr sendkey : String)
    (delivery : Option String) (raw : RawResponse) (prior : Option Entry) :
    ∀ n, (process_key today openDate cid dateStr sendkey delivery raw prior).notifications =
        [n] →
      (process_key today openDate cid dateStr sendkey delivery raw prior).newEntry =
        some ⟨"HAS_STOCK", join_lines n.lines⟩ := by
  intro n hn
  by_cases hw : today < openDate
  · rw [process_key_closed today openDate cid dateStr sendkey delivery raw prior hw] at hn
    exact absurd hn (by simp)
  · rcases hfr : fetch_slots raw with ⟨st, so, m⟩
    cases st with
    | NOT_OPEN =>
        rw [process_key_not_open today openDate cid dateStr sendkey delivery raw prior
          hw so m hfr] at hn
        exact absurd hn (by simp)
    | ERROR =>
        rw [process_key_error today openDate cid dateStr sendkey delivery raw prior
          hw so m hfr] at hn
        exact absurd hn (by simp)
    | OK =>
        obtain ⟨slots, hso⟩ := fetch_slots_ok_slots raw (by rw [hfr])
        rw [hfr] at hso
        obtain rfl : so = some slots := hso
        by_cases hle : format_available_lines slots = []
        · by_cases hc : getStatus prior = some "NO_STOCK"
          · rw [process_key_no_stock_unchanged today openDate cid dateStr sendkey delivery
              raw prior hw slots m hfr hle hc] at hn
            exact absurd hn (by simp)
          · rw [process_key_no_stock_changed today openDate cid dateStr sendkey delivery
              raw prior hw slots m hfr hle hc] at hn
            exact absurd hn (by simp)
        · by_cases hch : getStatus prior = some "HAS_STOCK" ∧
              getPayload prior = join_lines (format_available_lines slots)
          · rw [process_key_stock_unchanged today openDate cid dateStr sendkey delivery
              raw prior hw slots m hfr hle hch.1 hch.2] at hn
            exact absurd hn (by simp)
          · have hch2 : getStatus prior ≠ some "HAS_STOCK" ∨
                join_lines (format_available_lines slots) ≠ getPayload prior := by
              by_cases h2 : getStatus prior = some "HAS_STOCK"
              · exact Or.inr (fun hsh => hch ⟨h2, hsh.symm⟩)
              · exact Or.inl h2
            rw [process_key_has_stock today openDate cid dateStr sendkey delivery
              raw prior hw slots m hfr hle hch2] at hn ⊢
            have hcall :
                (⟨format_available_lines slots, push_title dateStr cid,
                  push_body (format_available_lines slots)⟩ : NotifyCall) = n := by
              have := hn
              simpa using this
            rw [← hcall]

/-! ## Claim theorems -/

/-- C1: on an Open snapshot whose filtered slots are non-empty with
fingerprint F, the loop body issues exactly one notify call carrying the
slot listing and stores HasStockNotified(F) whenever the prior state is
not HasStockNotified or its stored fingerprint differs from F; and it
issues no notify and leaves the entry unchanged when the prior state is
HasStockNotified with the same fingerprint F. -/
theorem claim1_change_gated_notify (today openDate : Nat) (cid : Int)
    (dateStr sendkey : String) (delivery : Option String) (raw : RawResponse)
    (prior : Option Entry) (slots : List Slot) (m : String)
    (hw : openDate ≤ today)
    (hf : fetch_slots raw = (FetchStatus.OK, some slots, m))
    (hne : format_available_lines slots ≠ []) :
    ((getStatus prior ≠ some "HAS_STOCK" ∨
        getPayload prior ≠ join_lines (format_available_lines slots)) →
      (process_key today openDate cid dateStr sendkey delivery raw prior).notifications =
          [⟨format_available_lines slots, push_title dateStr cid,
            push_body (format_available_lines slots)⟩] ∧
        (process_key today openDate cid dateStr sendkey delivery raw prior).newEntry =
          some ⟨"HAS_STOCK", join_lines (format_available_lines slots)⟩) ∧
    (prior = some ⟨"HAS_STOCK", join_lines (format_available_lines slots)⟩ →
      (process_key today openDate cid dateStr sendkey delivery raw
          prior).notifications = [] ∧
        (process_key today openDate cid dateStr sendkey delivery raw prior).newEntry =
          prior) := by
  have hw2 : ¬ today < openDate := not_lt.mpr hw
  constructor
  · intro hch
    have hch2 : getStatus prior ≠ some "HAS_STOCK" ∨
        join_lines (format_available_lines slots) ≠ getPayload prior := by
      rcases hch with h1 | h1
      · exact Or.inl h1
      · exact Or.inr (Ne.symm h1)
    rw [process_key_has_stock today openDate cid dateStr sendkey delivery raw prior
      hw2 slots m hf hne hch2]
    exact ⟨rfl, rfl⟩
  · intro hprior
    rw [process_key_stock_unchanged today openDate cid dateStr sendkey delivery raw prior
      hw2 slots m hf hne (by rw [hprior]; rfl) (by rw [hprior]; rfl)]
    exact ⟨rfl, rfl⟩

/-- Witness for C1 at a concrete fresh key observing one slot with five
tickets: exactly one push and a HAS_STOCK entry with its fingerprint. -/
theorem claim1_witness :
    (process_key 10 5 1 "2025-10-01" "" none
        (RawResponse.ok (some 1) "ok" (DataField.list [witSlot])) none).notifications =
      [⟨["10:00-11:00：5 张"], push_title "2025-10-01" 1, push_body ["10:00-11:00：5 张"]⟩] ∧
    (process_key 10 5 1 "2025-10-01" "" none
        (RawResponse.ok (some 1) "ok" (DataField.list [witSlot])) none).newEntry =
      some ⟨"HAS_STOCK", "10:00-11:00：5 张"⟩ :=
  (claim1_change_gated_notify 10 5 1 "2025-10-01" "" none
    (RawResponse.ok (some 1) "ok" (DataField.list [witSlot])) none [witSlot] "ok"
    (by decide) rfl (by decide)).1 (Or.inl (by decide))

/-- C2: a poll that classifies to Error issues no notify call, leaves the
remembered entry exactly as before the poll, and raises nothing out of
the loop body, so the cycle continues with the next key. -/
theorem claim2_error_preserves_state (today openDate : Nat) (cid : Int)
    (dateStr sendkey : String) (delivery : Option String) (raw : RawResponse)
    (prior : Option Entry)
    (hw : openDate ≤ today)
    (herr : (fetch_slots raw).1 = FetchStatus.ERROR) :
    (process_key today openDate cid dateStr sendkey delivery raw prior).notifications = [] ∧
    (process_key today openDate cid dateStr sendkey delivery raw prior).newEntry = prior ∧
    (process_key today openDate cid dateStr sendkey delivery raw prior).raised = none := by
  have hw2 : ¬ today < openDate := not_lt.mpr hw
  rcases hfr : fetch_slots raw with ⟨st, so, m⟩
  rw [hfr] at herr
  obtain rfl : st = FetchStatus.ERROR := herr
  rw [process_key_error today openDate cid dateStr sendkey delivery raw prior hw2 so m hfr]
  exact ⟨rfl, rfl, rfl⟩

/-- Witness for C2: a transport exception with a HAS_STOCK entry in
place leaves the entry untouched and pushes nothing. -/
theorem claim2_witness :
    (process_key 10 5 1 "d" "" none (RawResponse.transportError "timeout")
        (some ⟨"HAS_STOCK", "X"⟩)).notifications = [] ∧
    (process_key 10 5 1 "d" "" none (RawResponse.transportError "timeout")
        (some ⟨"HAS_STOCK", "X"⟩)).newEntry = some ⟨"HAS_STOCK", "X"⟩ ∧
    (process_key 10 5 1 "d" "" none (RawResponse.transportError "timeout")
        (some ⟨"HAS_STOCK", "X"⟩)).raised = none :=
  claim2_error_preserves_state 10 5 1 "d" "" none (RawResponse.transportError "timeout")
    (some ⟨"HAS_STOCK", "X"⟩) (by decide) rfl

/-- C3: the classifier implements exactly the spec decision rule: code 1
with a present list data field yields Open carrying that list in order;
otherwise code 0 with the no-data marker yields NotYetOpen regardless of
other fields; every other response (login message, code 0 without the
marker, transport exception, or a non-JSON body) yields Error. -/
theorem claim3_classifier_matches_spec (r : RawResponse) :
    ((fetch_slots r).1, (fetch_slots r).2.1) = classify_spec r := by
  cases r with
  | transportError e => rfl
  | httpError e => rfl
  | jsonError e t => rfl
  | ok code msg df =>
      simp only [fetch_slots, classify_spec]
      split_ifs <;> rfl

/-- C4: the summarizer keeps exactly the slots whose stripped quantity
string parses to a positive integer (missing or unparsable quantities
count as zero), in input order, renders each kept slot as
label：qty 张, fingerprints the empty sequence to the empty string, and
maps the section 8 example to its stated filtered list and fingerprint. -/
theorem claim4_summarizer (slots : List Slot) (s : Slot) :
    format_available_lines slots = (slots.filter keepSlot).map renderSlot ∧
    slotNums s = (pyIntOfString (pyStrip (s.nums.getD "0"))).getD 0 ∧
    (s.nums = none → slotNums s = 0) ∧
    join_lines ([] : List String) = "" ∧
    format_available_lines exampleSlots = ["10:00-11:00：5 张"] ∧
    join_lines (format_available_lines exampleSlots) = "10:00-11:00：5 张" := by
  refine ⟨format_available_lines_eq slots, slotNums_eq s, ?_, rfl, by decide, by decide⟩
  intro hn
  rw [slotNums_eq s, hn]
  rfl

/-- Witness for C4: a slot without a quantity key counts as zero, and
the section 8 example filters as the filter-map characterization says. -/
theorem claim4_witness :
    slotNums ⟨none, some "x", none⟩ = 0 ∧
    format_available_lines exampleSlots = (exampleSlots.filter keepSlot).map renderSlot :=
  ⟨(claim4_summarizer exampleSlots ⟨none, some "x", none⟩).2.2.1 rfl,
   (claim4_summarizer exampleSlots ⟨none, some "x", none⟩).1⟩

/-- C5: the open date of a well-formed target date string is its day
ordinal minus 15 calendar days; the open window holds exactly when today
has reached that ordinal; and on the concrete instances, 2025-10-01
opens on 2025-09-16, with 2025-09-15 outside the window and 2025-09-16
inside it. -/
theorem claim5_open_date (s : String) (y m d : Nat) (today od : Nat) (target : String) :
    (parse_date s = some (y, m, d) →
      compute_open_date s = some (toOrdinal y m d - 15)) ∧
    compute_open_date "2025-10-01" = some (toOrdinal 2025 9 16) ∧
    (compute_open_date target = some od →
      (is_in_open_window today target = true ↔ od ≤ today)) ∧
    is_in_open_window (toOrdinal 2025 9 15) "2025-10-01" = false ∧
    is_in_open_window (toOrdinal 2025 9 16) "2025-10-01" = true := by
  refine ⟨?_, by decide, ?_, by decide, by decide⟩
  · intro hp
    unfold compute_open_date
    rw [hp]
    rfl
  · intro hc
    unfold is_in_open_window
    rw [hc]
    simp

/-- Witness for C5: the parse of the concrete target succeeds and the
window test at the open date itself reduces to an ordinal comparison. -/
theorem claim5_witness :
    compute_open_date "2025-10-01" = some (toOrdinal 2025 10 1 - 15) ∧
    (is_in_open_window (toOrdinal 2025 9 16) "2025-10-01" = true ↔
      toOrdinal 2025 10 1 - 15 ≤ toOrdinal 2025 9 16) :=
  ⟨(claim5_open_date "2025-10-01" 2025 10 1 0 0 "x").1 (by decide),
   (claim5_open_date "x" 1 1 1 (toOrdinal 2025 9 16) (toOrdinal 2025 10 1 - 15)
      "2025-10-01").2.2.1 (by decide)⟩

/-- C6: while today is strictly before the open date the loop body never
calls the fetch collaborator, pushes nothing, and routes the entry to
status NOT_OPEN; from the open date on, the classifier is invoked on
every cycle. -/
theorem claim6_open_window_gating (today openDate : Nat) (cid : Int)
    (dateStr sendkey : String) (delivery : Option String) (raw : RawResponse)
    (prior : Option Entry) :
    (today < openDate →
      (process_key today openDate cid dateStr sendkey delivery raw
          prior).fetchCalled = false ∧
      (process_key today openDate cid dateStr sendkey delivery raw
          prior).notifications = [] ∧
      ∃ e, (process_key today openDate cid dateStr sendkey delivery raw
          prior).newEntry = some e ∧ e.status = "NOT_OPEN") ∧
    (openDate ≤ today →
      (process_key today openDate cid dateStr sendkey delivery raw
          prior).fetchCalled = true) := by
  constructor
  · intro hlt
    rw [process_key_closed today openDate cid dateStr sendkey delivery raw prior hlt]
    refine ⟨rfl, rfl, ?_⟩
    by_cases hst : getStatus prior ≠ some "NOT_OPEN"
    · rw [if_pos hst]
      exact ⟨⟨"NOT_OPEN", ""⟩, rfl, rfl⟩
    · rw [if_neg hst]
      push_neg at hst
      rcases prior with _ | e
      · simp [getStatus] at hst
      · refine ⟨e, rfl, ?_⟩
        have : some e.status = some "NOT_OPEN" := hst
        exact Option.some.inj this
  · intro hge
    exact (process_key_shape today openDate cid dateStr sendkey delivery raw prior).2.mpr hge

/-- Witness for C6: before the open date a transport-failing oracle is
never consulted, and on the open date it is. -/
theorem claim6_witness :
    ((process_key 3 5 1 "d" "" none (RawResponse.transportError "x")
        none).fetchCalled = false ∧
      (process_key 3 5 1 "d" "" none (RawResponse.transportError "x")
        none).notifications = [] ∧
      ∃ e, (process_key 3 5 1 "d" "" none (RawResponse.transportError "x")
        none).newEntry = some e ∧ e.status = "NOT_OPEN") ∧
    (process_key 5 5 1 "d" "" none (RawResponse.transportError "x")
        none).fetchCalled = true :=
  ⟨(claim6_open_window_gating 3 5 1 "d" "" none (RawResponse.transportError "x")
      none).1 (by decide),
   (claim6_open_window_gating 5 5 1 "d" "" none (RawResponse.transportError "x")
      none).2 (by decide)⟩

/-- C7: notify_serverchan returns for every send key and delivery
outcome (unset key and delivery errors fail soft), no loop body raises,
and whenever a notify call was issued the entry is committed to
HAS_STOCK with the fingerprint of the notified lines, independently of
whether the delivery succeeded. -/
theorem claim7_notify_fail_soft (sendkey : String) (delivery : Option String)
    (today openDate : Nat) (cid : Int) (dateStr : String) (raw : RawResponse)
    (prior : Option Entry) :
    (∃ w, notify_serverchan sendkey delivery = NotifyOutcome.returned w) ∧
    (process_key today openDate cid dateStr sendkey delivery raw prior).raised = none ∧
    ∀ n, (process_key today openDate cid dateStr sendkey delivery raw
        prior).notifications = [n] →
      (process_key today openDate cid dateStr sendkey delivery raw prior).newEntry =
        some ⟨"HAS_STOCK", join_lines n.lines⟩ :=
  ⟨notify_serverchan_returned sendkey delivery,
   (process_key_shape today openDate cid dateStr sendkey delivery raw prior).1,
   process_key_notify_commits today openDate cid dateStr sendkey delivery raw prior⟩

/-- Witness for C7: with a set send key and a failing delivery, the
notify call is issued and the entry is still committed to HAS_STOCK. -/
theorem claim7_witness :
    (process_key 10 5 1 "d" "SCTKEY" (some "post failed")
        (RawResponse.ok (some 1) "ok" (DataField.list [witSlot])) none).newEntry =
      some ⟨"HAS_STOCK",
        join_lines (NotifyCall.mk ["10:00-11:00：5 张"] (push_title "d" 1)
          (push_body ["10:00-11:00：5 张"])).lines⟩ :=
  (claim7_notify_fail_soft "SCTKEY" (some "post failed") 10 5 1 "d"
      (RawResponse.ok (some 1) "ok" (DataField.list [witSlot])) none).2.2
    ⟨["10:00-11:00：5 张"], push_title "d" 1, push_body ["10:00-11:00：5 张"]⟩
    (by decide)

/-- C8: the end-of-cycle sleep equals base plus jitter, where the base
is the 60 second short cycle exactly when some monitored open date has
been reached and the 43200 second long cycle otherwise; for a jitter
draw within the randint bound the sleep lies in the band of width 10
above the base, and every cycle recomputes the sleep from its own day
value. -/
theorem claim8_sleep_bounds (today : Nat) (openDates : List Nat) (jitter : Nat)
    (hj : jitter ≤ JITTER_SEC) :
    cycle_sleep today openDates jitter =
      (if ∃ od ∈ openDates, od ≤ today then CHECK_INTERVAL_SEC
       else EARLY_CHECK_INTERVAL_SEC) + jitter ∧
    (if ∃ od ∈ openDates, od ≤ today then CHECK_INTERVAL_SEC
     else EARLY_CHECK_INTERVAL_SEC) ≤ cycle_sleep today openDates jitter ∧
    cycle_sleep today openDates jitter ≤
      (if ∃ od ∈ openDates, od ≤ today then CHECK_INTERVAL_SEC
       else EARLY_CHECK_INTERVAL_SEC) + 10 ∧
    ∀ (sendkey : String) (c : CycleInput) (rt : RandTape) (s : LoopState),
      (run_cycle_rand sendkey c rt s).2.2.2 =
        cycle_sleep c.today (c.keys.map KeyInput.openDate) rt.jitter := by
  have hbase : openDates.any (fun od => od ≤ today) = true ↔
      ∃ od ∈ openDates, od ≤ today := by
    simp [List.any_eq_true]
  have heq : cycle_sleep today openDates jitter =
      (if ∃ od ∈ openDates, od ≤ today then CHECK_INTERVAL_SEC
       else EARLY_CHECK_INTERVAL_SEC) + jitter := by
    unfold cycle_sleep
    by_cases hex : ∃ od ∈ openDates, od ≤ today
    · rw [if_pos (hbase.mpr hex), if_pos hex]
    · rw [if_neg (fun hc => hex (hbase.mp hc)), if_neg hex]
  have hj10 : jitter ≤ 10 := by
    have : JITTER_SEC = 10 := rfl
    omega
  refine ⟨heq, ?_, ?_, fun sendkey c rt s => rfl⟩
  · rw [heq]; omega
  · rw [heq]; omega

/-- Witness for C8: a jitter draw of 7 with one reached open date gives
the short base plus 7. -/
theorem claim8_witness :
    cycle_sleep 100 [90] 7 =
      (if ∃ od ∈ [90], od ≤ 100 then CHECK_INTERVAL_SEC
       else EARLY_CHECK_INTERVAL_SEC) + 7 :=
  (claim8_sleep_bounds 100 [90] 7 (by decide)).1

/-- C9: every state reachable from the initial empty table satisfies the
entry invariant: status is one of NOT_OPEN, NO_STOCK, HAS_STOCK; the
payload is empty unless status is HAS_STOCK; and a HAS_STOCK payload
equals the fingerprint of the lines passed to the latest notify call
for that key. -/
theorem claim9_table_invariant (sendkey : String) (cs : List CycleInput) :
    StateInv (run sendkey cs) :=
  run_preserves sendkey cs

/-- Witness for C9: after one closed-window cycle the stored entry for
the monitored key satisfies the invariant. -/
theorem claim9_witness :
    EntryInv ⟨"NOT_OPEN", ""⟩ ((run "" [witCycle]).lastNotify (1, "2025-10-01")) :=
  claim9_table_invariant "" [witCycle] (1, "2025-10-01") ⟨"NOT_OPEN", ""⟩ rfl

/-- C10: with the oracle inputs of a cycle fixed, the resulting table
and the issued notify calls are identical across any two random tapes;
the random draws influence only the sleeping, never whether or what to
notify. -/
theorem claim10_randomness_only_sleep (sendkey : String) (c : CycleInput) (s : LoopState)
    (rt1 rt2 : RandTape) :
    (run_cycle_rand sendkey c rt1 s).1 = (run_cycle_rand sendkey c rt2 s).1 ∧
    (run_cycle_rand sendkey c rt1 s).2.1 = (run_cycle_rand sendkey c rt2 s).2.1 :=
  ⟨rfl, rfl⟩

end Potala
